import Mathlib

/-!
Verification development for the job-advertisement crawler.

The definitions below are a shallow embedding of the Python sources
(`harvester.py`, `keyword_manager.py`, `analyzer.py`).  Database tables are
embedded as lists of rows, SQL queries as list filters, Python generators as
list-producing recursions, raised exceptions as `Except`, and wall-clock
timing as explicit rational-valued state.  Each claim theorem cites the
source location of the code it formalises.
-/

namespace Crawler

/-- A row of the `advertisements` table
(schema: `Harvester.create_schema`, harvester.py lines 63-79). -/
structure AdRow where
  id : Nat
  title : Option String
  description : Option String
  company : Option String
  location : Option String
  url : String
  htmlBody : String
  httpStatus : Int
  adType : String
  filename : Option String
  deriving Repr, DecidableEq

/-- An in-memory `Advertisement` instance (advert.py): the raw document
`source`, the request `link` and `status`, and the values the per-source
extractor (`get_title` / `get_description` / ...) returns on that document —
each is `none` exactly when extraction finds nothing. -/
structure Advert where
  status : Int
  link : String
  source : String
  title : Option String := none
  description : Option String := none
  company : Option String := none
  location : Option String := none
  adType : String := "Advertisement"
  deriving Repr, DecidableEq

/-- Outcome of one HTTP GET: status code and decoded body
(`requests.Response.status_code` / `.text`). -/
structure FetchResult where
  status : Int
  body : String
  deriving Repr, DecidableEq

/-- Python truthiness of an `Optional[str]`: `None` and `""` are falsy. -/
def pyTruthy : Option String → Bool
  | none => false
  | some s => !(s == "")

/-- Python `str.strip()` on the character list: drop whitespace from both
ends. -/
def pyStripList (l : List Char) : List Char :=
  ((l.dropWhile Char.isWhitespace).reverse.dropWhile Char.isWhitespace).reverse

/-- Python `str.strip()`. -/
def pyStrip (s : String) : String :=
  String.mk (pyStripList s.data)

/-- `Harvester.advertisement_exists` (harvester.py lines 133-166):
`SELECT url, http_status, html_body FROM advertisements WHERE url = ?`,
`fetchone()` (the first matching row), then the Python truth value of
`status_code == 200 and html_body and len(html_body.strip()) > 0`. -/
def advertisement_exists (db : List AdRow) (url : String) : Bool :=
  match db.find? (fun r => r.url == url) with
  | none => false
  | some r =>
      r.httpStatus == 200 && !(r.htmlBody == "") &&
        decide (0 < (pyStrip r.htmlBody).length)

/-- A stored row counts as successfully harvested: HTTP 200 and a body that
is non-empty after stripping whitespace. -/
def successfullyHarvested (r : AdRow) : Prop :=
  r.httpStatus = 200 ∧ pyStrip r.htmlBody ≠ ""

theorem data_empty_string : ("" : String).data = [] := rfl

theorem string_ne_empty_iff (s : String) : s ≠ "" ↔ s.data ≠ [] := by
  rw [not_iff_not, String.ext_iff, data_empty_string]

theorem pyStrip_ne_imp_ne (s : String) (h : pyStrip s ≠ "") : s ≠ "" := by
  intro he
  subst he
  exact h rfl

theorem length_pos_iff_ne_empty (s : String) : 0 < s.length ↔ s ≠ "" := by
  rw [string_ne_empty_iff]
  cases s with
  | mk l =>
      show 0 < l.length ↔ l ≠ []
      exact List.length_pos

/-- If some stored row carries this URL with a 200 status and a
non-blank body, and stored URLs are pairwise distinct (the schema's `url`
UNIQUE constraint), then `advertisement_exists` answers `true`. -/
theorem advertisement_exists_of_row (db : List AdRow) (url : String)
    (hN : (db.map (fun r => r.url)).Nodup)
    (r : AdRow) (hr : r ∈ db) (hurl : r.url = url)
    (hok : successfullyHarvested r) :
    advertisement_exists db url = true := by
  induction db with
  | nil => cases hr
  | cons a rest ih =>
      rw [List.map_cons, List.nodup_cons] at hN
      rcases List.mem_cons.mp hr with hra | hrt
      · subst hra
        unfold advertisement_exists
        rw [List.find?_cons_of_pos _ (by simp [hurl])]
        rcases hok with ⟨h200, hbody⟩
        have hb1 : r.htmlBody ≠ "" := pyStrip_ne_imp_ne _ hbody
        have hb2 : 0 < (pyStrip r.htmlBody).length :=
          (length_pos_iff_ne_empty _).mpr hbody
        simp [h200, hb1, hb2]
      · have haurl : a.url ≠ url := by
          intro heq
          apply hN.1
          rw [heq, ← hurl]
          exact List.mem_map.mpr ⟨r, hrt, rfl⟩
        unfold advertisement_exists
        rw [List.find?_cons_of_neg _ (by simp [haurl])]
        have := ih hN.2 hrt
        unfold advertisement_exists at this
        exact this

/-- Conversely, a `true` answer exhibits a stored row with this URL,
status 200 and a non-blank body (no uniqueness needed: `fetchone` itself
returns a matching row). -/
theorem row_of_advertisement_exists (db : List AdRow) (url : String)
    (h : advertisement_exists db url = true) :
    ∃ r ∈ db, r.url = url ∧ successfullyHarvested r := by
  unfold advertisement_exists at h
  cases hf : db.find? (fun s => s.url == url) with
  | none => rw [hf] at h; cases h
  | some r =>
      rw [hf] at h
      have hmem : r ∈ db := List.mem_of_find?_eq_some hf
      have hpred := List.find?_some hf
      simp only [beq_iff_eq] at hpred
      simp only [Bool.and_eq_true, beq_iff_eq, Bool.not_eq_true',
        decide_eq_true_eq, beq_eq_false_iff_ne] at h
      exact ⟨r, hmem, hpred, h.1.1, (length_pos_iff_ne_empty _).mp h.2⟩

/-- C2.  The idempotency check `advertisement_exists` returns `true` iff the
store has a row with that exact URL, `http_status = 200` and a body that is
non-empty after stripping whitespace; with no such row (no row at all for the
URL, or a non-200 status, or an empty or whitespace-only body) it returns
`false`.  Stated under the schema's `url` UNIQUE constraint.
(harvester.py lines 133-166.) -/
theorem exists_check_iff_valid_row (db : List AdRow) (url : String)
    (hN : (db.map (fun r => r.url)).Nodup) :
    advertisement_exists db url = true ↔
      ∃ r ∈ db, r.url = url ∧ r.httpStatus = 200 ∧ pyStrip r.htmlBody ≠ "" := by
  constructor
  · intro h
    rcases row_of_advertisement_exists db url h with ⟨r, hmem, hurl, h200, hb⟩
    exact ⟨r, hmem, hurl, h200, hb⟩
  · rintro ⟨r, hmem, hurl, h200, hb⟩
    exact advertisement_exists_of_row db url hN r hmem hurl ⟨h200, hb⟩

/-- Witness for C2 at a concrete one-row store. -/
theorem exists_check_iff_valid_row_witness :
    advertisement_exists
      [{ id := 1, title := none, description := none, company := none,
         location := none, url := "https://example.org/job/1",
         htmlBody := "<html>x</html>", httpStatus := 200,
         adType := "KarriereAdvertisement", filename := none }]
      "https://example.org/job/1" = true := by
  have h := exists_check_iff_valid_row
    [{ id := 1, title := none, description := none, company := none,
       location := none, url := "https://example.org/job/1",
       htmlBody := "<html>x</html>", httpStatus := 200,
       adType := "KarriereAdvertisement", filename := none }]
    "https://example.org/job/1" (by simp)
  exact h.mpr ⟨_, List.mem_singleton.mpr rfl, rfl, rfl, by decide⟩

/-! ### Harvest pass: enumerate → skip-if-exists → fetch (with one retry) →
classify → insert (KarriereHarvester.get_next_advert, harvester.py lines
1159-1204, StepStoneHarvester.get_next_advert lines 1074-1116, and the
insertion loop of Harvester.harvest lines 224-345). -/

/-- `response.status_code in (500, 502, 503, 504)` (harvester.py line 1172). -/
def transientStatus (s : Int) : Bool :=
  s == 500 || s == 502 || s == 503 || s == 504

/-- What processing one candidate link did: the advertisement yielded (if
any), how many HTTP GETs of the link were issued, the durations slept (in
seconds), whether the link was skipped as 410 Gone (a warning, not an
error), and the final non-200 status logged as a fetch failure (if any). -/
structure LinkOutcome where
  stored : Option Advert
  fetched : Nat
  sleeps : List Nat
  gone : Bool
  failed : Option Int
  deriving Repr, DecidableEq

/-- The fetch-retry-classify body of `get_next_advert` for one link
(harvester.py lines 1170-1204): GET the link; on 500/502/503/504 sleep
`retry_timeout * 60` seconds and GET once more; then 410 ⇒ skip (warning),
other non-200 ⇒ skip (logged error), 200 ⇒ yield the advertisement.
`f1` gives the first response for a URL, `f2` the response to the retry.
(The extractor-run results on the fetched body are irrelevant to the claims
about this function and are left at their defaults.) -/
def handleFetch (retryTimeout : Nat) (link : String)
    (f1 f2 : String → FetchResult) : LinkOutcome :=
  let r1 := f1 link
  let retried := transientStatus r1.status
  let r := if retried then f2 link else r1
  let fetched := if retried then 2 else 1
  let sleeps := if retried then [retryTimeout * 60] else []
  if r.status == 410 then ⟨none, fetched, sleeps, true, none⟩
  else if !(r.status == 200) then ⟨none, fetched, sleeps, false, some r.status⟩
  else ⟨some { status := r.status, link := link, source := r.body,
               adType := "KarriereAdvertisement" },
        fetched, sleeps, false, none⟩

/-- One full iteration of the `get_next_advert` loop (harvester.py lines
1163-1204): the `advertisement_exists` check short-circuits the candidate
before any fetch; otherwise fetch and classify. -/
def processLink (db : List AdRow) (rt : Nat) (f1 f2 : String → FetchResult)
    (link : String) : LinkOutcome :=
  if advertisement_exists db link then ⟨none, 0, [], false, none⟩
  else handleFetch rt link f1 f2

/-- AUTOINCREMENT id for the next insert. -/
def nextId (db : List AdRow) : Nat :=
  (db.map (fun r => r.id)).foldr max 0 + 1

/-- The insertion step of `Harvester.harvest` (harvester.py lines 233-292):
re-check `SELECT id FROM advertisements WHERE url = ?` and skip when a row
already holds the URL, else insert the row (extracted fields defaulted to
`""` via `or ""`). -/
def insertAdvert (db : List AdRow) (ad : Advert) : List AdRow :=
  if db.any (fun r => r.url == ad.link) then db
  else db ++ [{ id := nextId db,
                title := some (ad.title.getD ""),
                description := some (ad.description.getD ""),
                company := some (ad.company.getD ""),
                location := some (ad.location.getD ""),
                url := ad.link, htmlBody := ad.source,
                httpStatus := ad.status, adType := ad.adType,
                filename := none }]

/-- Result of a harvest pass: the final advertisements table, the total
number of content-page GETs issued, and per-candidate log `(link, fetches)`. -/
structure PassResult where
  db : List AdRow
  fetches : Nat
  log : List (String × Nat)
  deriving Repr, DecidableEq

/-- A harvest pass over the enumerated candidate links
(`Harvester.harvest` consuming `get_next_advert`): the store is re-read for
every candidate, so insertions earlier in the pass are visible to later
`advertisement_exists` checks. -/
def harvestPass (rt : Nat) (f1 f2 : String → FetchResult) :
    List AdRow → List String → PassResult
  | db, [] => ⟨db, 0, []⟩
  | db, link :: rest =>
      let o := processLink db rt f1 f2 link
      let db1 := match o.stored with
        | none => db
        | some ad => insertAdvert db ad
      let p := harvestPass rt f1 f2 db1 rest
      ⟨p.db, o.fetched + p.fetches, (link, o.fetched) :: p.log⟩

/-- Number of retry GETs a URL received during a pass (each candidate
contributes its fetch count minus the initial GET). -/
def retriesFor (log : List (String × Nat)) (url : String) : Nat :=
  ((log.filter (fun e => e.1 == url)).map (fun e => e.2 - 1)).sum

/-- C1.  Idempotent re-crawl: when every candidate URL already has a stored
row with `http_status = 200` and a body non-empty after stripping (and stored
URLs are unique, per the schema), a second harvest pass leaves the
advertisements table unchanged and issues zero content fetches — the
`exists` check short-circuits every candidate.
(harvester.py lines 1159-1168 and 133-166.) -/
theorem idempotent_recrawl (db : List AdRow) (rt : Nat)
    (f1 f2 : String → FetchResult) (links : List String)
    (hN : (db.map (fun r => r.url)).Nodup)
    (hAll : ∀ l ∈ links, ∃ r ∈ db,
      r.url = l ∧ r.httpStatus = 200 ∧ pyStrip r.htmlBody ≠ "") :
    (harvestPass rt f1 f2 db links).db = db ∧
    (harvestPass rt f1 f2 db links).fetches = 0 := by
  induction links with
  | nil => exact ⟨rfl, rfl⟩
  | cons l rest ih =>
      have hex : advertisement_exists db l = true := by
        rcases hAll l (List.mem_cons_self l rest) with ⟨r, hm, hu, h2, hb⟩
        exact advertisement_exists_of_row db l hN r hm hu ⟨h2, hb⟩
      have hrest := ih (fun x hx => hAll x (List.mem_cons_of_mem l hx))
      unfold harvestPass
      simp only [processLink, hex, if_pos]
      exact ⟨hrest.1, by simpa using hrest.2⟩

/-- Witness for C1: one stored 200-row and the same URL as the only
candidate; the pass changes nothing and fetches nothing. -/
theorem idempotent_recrawl_witness :
    (harvestPass 5 (fun _ => ⟨200, "new body"⟩) (fun _ => ⟨200, "new body"⟩)
      [{ id := 1, title := none, description := none, company := none,
         location := none, url := "https://example.org/job/1",
         htmlBody := "<html>x</html>", httpStatus := 200,
         adType := "KarriereAdvertisement", filename := none }]
      ["https://example.org/job/1"]).db =
      [{ id := 1, title := none, description := none, company := none,
         location := none, url := "https://example.org/job/1",
         htmlBody := "<html>x</html>", httpStatus := 200,
         adType := "KarriereAdvertisement", filename := none }] ∧
    (harvestPass 5 (fun _ => ⟨200, "new body"⟩) (fun _ => ⟨200, "new body"⟩)
      [{ id := 1, title := none, description := none, company := none,
         location := none, url := "https://example.org/job/1",
         htmlBody := "<html>x</html>", httpStatus := 200,
         adType := "KarriereAdvertisement", filename := none }]
      ["https://example.org/job/1"]).fetches = 0 := by
  apply idempotent_recrawl
  · simp
  · intro l hl
    rw [List.mem_singleton] at hl
    subst hl
    exact ⟨_, List.mem_singleton.mpr rfl, rfl, rfl, by decide⟩

theorem handleFetch_fetched_le (rt : Nat) (link : String)
    (f1 f2 : String → FetchResult) :
    (handleFetch rt link f1 f2).fetched ≤ 2 := by
  unfold handleFetch
  cases htr : transientStatus (f1 link).status <;>
    simp only [htr, if_true, if_false, Bool.false_eq_true] <;>
    split_ifs <;> simp

theorem processLink_fetched_le (db : List AdRow) (rt : Nat)
    (f1 f2 : String → FetchResult) (link : String) :
    (processLink db rt f1 f2 link).fetched ≤ 2 := by
  unfold processLink
  split_ifs
  · simp
  · exact handleFetch_fetched_le rt link f1 f2

theorem retriesFor_cons (e : String × Nat) (log : List (String × Nat))
    (url : String) :
    retriesFor (e :: log) url =
      (if e.1 == url then e.2 - 1 else 0) + retriesFor log url := by
  unfold retriesFor
  rw [List.filter_cons]
  split_ifs with h
  · simp [h]
  · simp [h]

theorem retriesFor_zero_of_not_mem (rt : Nat) (f1 f2 : String → FetchResult)
    (url : String) :
    ∀ (links : List String) (db : List AdRow), url ∉ links →
      retriesFor (harvestPass rt f1 f2 db links).log url = 0 := by
  intro links
  induction links with
  | nil => intro db _; rfl
  | cons l rest ih =>
      intro db hn
      unfold harvestPass
      rw [retriesFor_cons]
      have hl : (l == url) = false := by
        simp only [beq_eq_false_iff_ne]
        exact fun h => hn (h ▸ List.mem_cons_self l rest)
      rw [hl]
      simp only [Bool.false_eq_true, if_neg, Nat.zero_add, not_false_eq_true]
      exact ih _ (fun h => hn (List.mem_cons_of_mem l h))

/-- C3.  Transient-retry behaviour of the per-link fetch
(StepStoneHarvester.get_next_advert, harvester.py lines 1085-1107, and
KarriereHarvester.get_next_advert, lines 1170-1193):
a first response with status 500/502/503/504 causes exactly one sleep of
`retry_timeout * 60` seconds and exactly one re-fetch (2 GETs total), after
which the URL is classified by the retried status — 410 skipped without
error, other non-200 logged and skipped, 200 yielded; an initial 410 is
skipped with no retry, no sleep and no error; no candidate is ever fetched
more than twice, and over a pass with duplicate-free candidates no URL
receives more than one retry. -/
theorem single_retry_then_classify (rt : Nat) (link : String)
    (f1 f2 : String → FetchResult) :
    ((f1 link).status = 500 ∨ (f1 link).status = 502 ∨
      (f1 link).status = 503 ∨ (f1 link).status = 504 →
      (handleFetch rt link f1 f2).sleeps = [rt * 60] ∧
      (handleFetch rt link f1 f2).fetched = 2 ∧
      ((f2 link).status = 410 →
        handleFetch rt link f1 f2 = ⟨none, 2, [rt * 60], true, none⟩) ∧
      ((f2 link).status ≠ 410 → (f2 link).status ≠ 200 →
        handleFetch rt link f1 f2 =
          ⟨none, 2, [rt * 60], false, some (f2 link).status⟩) ∧
      ((f2 link).status = 200 →
        handleFetch rt link f1 f2 =
          ⟨some { status := 200, link := link, source := (f2 link).body,
                  adType := "KarriereAdvertisement" },
            2, [rt * 60], false, none⟩)) ∧
    ((f1 link).status = 410 →
      handleFetch rt link f1 f2 = ⟨none, 1, [], true, none⟩) ∧
    (∀ db : List AdRow, (processLink db rt f1 f2 link).fetched ≤ 2) ∧
    (∀ (db : List AdRow) (links : List String) (url : String), links.Nodup →
      retriesFor (harvestPass rt f1 f2 db links).log url ≤ 1) := by
  refine ⟨?_, ?_, ?_, ?_⟩
  · intro hs
    have htr : transientStatus (f1 link).status = true := by
      rcases hs with h | h | h | h <;> simp [transientStatus, h]
    have hmaster : handleFetch rt link f1 f2 =
        (if (f2 link).status == 410 then
          ⟨none, 2, [rt * 60], true, none⟩
         else if !((f2 link).status == 200) then
          ⟨none, 2, [rt * 60], false, some (f2 link).status⟩
         else
          ⟨some { status := (f2 link).status, link := link,
                  source := (f2 link).body,
                  adType := "KarriereAdvertisement" },
            2, [rt * 60], false, none⟩) := by
      simp [handleFetch, htr]
    refine ⟨?_, ?_, ?_, ?_, ?_⟩
    · rw [hmaster]; split_ifs <;> rfl
    · rw [hmaster]; split_ifs <;> rfl
    · intro h410
      rw [hmaster]
      simp [h410]
    · intro h410 h200
      rw [hmaster]
      simp [h410, h200]
    · intro h200
      rw [hmaster]
      simp [h200]
  · intro h410
    have htr : transientStatus (410 : Int) = false := by decide
    simp [handleFetch, htr, h410]
  · intro db
    exact processLink_fetched_le db rt f1 f2 link
  · intro db links url
    induction links generalizing db with
    | nil => intro _; simp [harvestPass, retriesFor]
    | cons l rest ih =>
        intro hN
        rw [List.nodup_cons] at hN
        unfold harvestPass
        rw [retriesFor_cons]
        cases hlu : (l == url) with
        | true =>
            have hurl : l = url := by simpa using hlu
            have hz : retriesFor
                (harvestPass rt f1 f2
                  (match (processLink db rt f1 f2 l).stored with
                    | none => db
                    | some ad => insertAdvert db ad) rest).log url = 0 :=
              retriesFor_zero_of_not_mem rt f1 f2 url rest _
                (by rw [← hurl]; exact hN.1)
            have hle := processLink_fetched_le db rt f1 f2 l
            simp only [hlu, if_pos]
            simp only [hz]
            omega
        | false =>
            simp only [hlu, Bool.false_eq_true, if_neg, Nat.zero_add,
              not_false_eq_true]
            exact ih _ hN.2

/-- Witness for C3: a 503 first response retried to a 200, at concrete
values; plus the per-pass retry bound on a singleton candidate list. -/
theorem single_retry_then_classify_witness :
    (handleFetch 5 "https://example.org/job/2"
        (fun _ => ⟨503, ""⟩) (fun _ => ⟨200, "recovered"⟩)).sleeps = [300] ∧
    (handleFetch 5 "https://example.org/job/2"
        (fun _ => ⟨503, ""⟩) (fun _ => ⟨200, "recovered"⟩)).fetched = 2 ∧
    handleFetch 5 "https://example.org/job/2"
        (fun _ => ⟨503, ""⟩) (fun _ => ⟨200, "recovered"⟩) =
      ⟨some { status := 200, link := "https://example.org/job/2",
              source := "recovered", adType := "KarriereAdvertisement" },
        2, [300], false, none⟩ ∧
    retriesFor (harvestPass 5 (fun _ => ⟨503, ""⟩) (fun _ => ⟨200, "recovered"⟩)
        [] ["https://example.org/job/2"]).log "https://example.org/job/2" ≤ 1 := by
  have h := single_retry_then_classify 5 "https://example.org/job/2"
    (fun _ => ⟨503, ""⟩) (fun _ => ⟨200, "recovered"⟩)
  have h1 := h.1 (Or.inr (Or.inr (Or.inl rfl)))
  exact ⟨h1.1, h1.2.1, h1.2.2.2.2 rfl,
    h.2.2.2 [] ["https://example.org/job/2"] "https://example.org/job/2"
      (List.nodup_singleton _)⟩

/-! ### Keyword matching (`KeywordManager.match_keywords`,
keyword_manager.py lines 124-193). A compiled pattern is embedded as its
`search` function `String → Bool`. -/

/-- `leadEq pat l` : the pattern characters equal an initial segment of `l`. -/
def leadEq : List Char → List Char → Bool
  | [], _ => true
  | _ :: _, [] => false
  | a :: as, b :: bs => a == b && leadEq as bs

/-- `occursIn pat l` : the pattern characters occur contiguously in `l`. -/
def occursIn (pat : List Char) : List Char → Bool
  | [] => leadEq pat []
  | c :: cs => leadEq pat (c :: cs) || occursIn pat cs

/-- `re.Pattern.search` of a metacharacter-free pattern: true iff the
pattern text occurs anywhere in the searched string. -/
def literalSearch (pat : String) : String → Bool :=
  fun s => occursIn pat.data s.data

/-- The final loop of `match_keywords` (keyword_manager.py lines 187-191):
collect the ids of the patterns whose `search` finds a match in the search
text, in dictionary order. -/
def searchIds (regexes : List (Nat × (String → Bool))) (text : String) :
    List Nat :=
  (regexes.filter (fun kr => kr.2 text)).map (fun kr => kr.1)

/-- `KeywordManager.match_keywords` (keyword_manager.py lines 124-193):
under `title_only` a `None` title gives the empty result with no fallback;
otherwise the search text is title-space-description when both are truthy,
else whichever is truthy, else the raw document `source`. -/
def match_keywords (ad : Advert) (regexes : List (Nat × (String → Bool)))
    (titleOnly : Bool) : List Nat :=
  if titleOnly then
    match ad.title with
    | none => []
    | some t => searchIds regexes t
  else
    let text :=
      if pyTruthy ad.title && pyTruthy ad.description then
        ad.title.getD "" ++ " " ++ ad.description.getD ""
      else if pyTruthy ad.title then ad.title.getD ""
      else if pyTruthy ad.description then ad.description.getD ""
      else ad.source
    searchIds regexes text

/-- C4.  Match scope: under title-only scope an absent title yields the
empty match set with no fallback; under full scope the search text is
title-space-description when both are present (Python-truthy), otherwise
whichever is present, otherwise the raw document body; concretely, an
advertisement with no title, no description and raw body
`"manager position"` yields zero matches for keyword `manager` under
title-only scope and exactly one match under full scope.
(keyword_manager.py lines 124-193.) -/
theorem match_scope_fallback :
    (∀ (regexes : List (Nat × (String → Bool))) (ad : Advert),
      ad.title = none → match_keywords ad regexes true = []) ∧
    (∀ (regexes : List (Nat × (String → Bool))) (ad : Advert),
      pyTruthy ad.title = true → pyTruthy ad.description = true →
      match_keywords ad regexes false =
        searchIds regexes (ad.title.getD "" ++ " " ++ ad.description.getD "")) ∧
    (∀ (regexes : List (Nat × (String → Bool))) (ad : Advert),
      pyTruthy ad.title = true → pyTruthy ad.description = false →
      match_keywords ad regexes false = searchIds regexes (ad.title.getD "")) ∧
    (∀ (regexes : List (Nat × (String → Bool))) (ad : Advert),
      pyTruthy ad.title = false → pyTruthy ad.description = true →
      match_keywords ad regexes false =
        searchIds regexes (ad.description.getD "")) ∧
    (∀ (regexes : List (Nat × (String → Bool))) (ad : Advert),
      pyTruthy ad.title = false → pyTruthy ad.description = false →
      match_keywords ad regexes false = searchIds regexes ad.source) ∧
    (match_keywords { status := 200, link := "", source := "manager position" }
        [(1, literalSearch "manager")] true = [] ∧
      match_keywords { status := 200, link := "", source := "manager position" }
        [(1, literalSearch "manager")] false = [1]) := by
  refine ⟨?_, ?_, ?_, ?_, ?_, ?_, ?_⟩
  · intro regexes ad h
    simp [match_keywords, h]
  · intro regexes ad ht hd
    simp [match_keywords, ht, hd]
  · intro regexes ad ht hd
    simp [match_keywords, ht, hd]
  · intro regexes ad ht hd
    simp [match_keywords, ht, hd]
  · intro regexes ad ht hd
    simp [match_keywords, ht, hd]
  · rfl
  · rfl

/-- Witness for C4: the absent-title case and the both-present case at
concrete advertisements. -/
theorem match_scope_fallback_witness :
    match_keywords { status := 200, link := "", source := "manager position" }
      [(1, literalSearch "manager")] true = [] ∧
    match_keywords
      { status := 200, link := "", source := "<html></html>",
        title := some "Sales Manager", description := some "a manager role" }
      [(1, literalSearch "manager")] false =
      searchIds [(1, literalSearch "manager")] "Sales Manager a manager role" := by
  have h := match_scope_fallback
  exact ⟨h.1 [(1, literalSearch "manager")] _ rfl,
    h.2.1 [(1, literalSearch "manager")]
      { status := 200, link := "", source := "<html></html>",
        title := some "Sales Manager", description := some "a manager role" }
      (by decide) (by decide)⟩

/-! ### Rate limiter and crawl delay (`Harvester._get`, harvester.py lines
428-442, and `Harvester.crawl_delay`, lines 420-423). -/

/-- Timing model of the throttle in `Harvester._get` (harvester.py lines
429-434): called at wall-clock `now` with last-request timestamp `last` and
delay `d`, it sleeps `last + d - now` when that is positive, then records
`time()` as the new `_last_request`.  `eps` is the non-negative extra time
that elapses in sleep overshoot and between statements before `time()` is
read. -/
def getRecordedTime (last d now eps : ℚ) : ℚ :=
  if last + d > now then last + d + eps else now + eps

theorem getRecordedTime_ge (last d now eps : ℚ) (heps : 0 ≤ eps) :
    last + d ≤ getRecordedTime last d now eps := by
  unfold getRecordedTime
  split_ifs with h
  · linarith
  · push_neg at h
    linarith

/-- C5.  Rate-limiter monotonicity: for two consecutive throttled requests
through the same harvester instance, the recorded timestamp of the second
exceeds that of the first by at least the crawl delay — and the first
already exceeds the previous recorded timestamp by at least the crawl
delay.  (Each instance carries its own `_last_request`: the assignment in
`_get` writes an instance attribute, so one source's requests never move
another source's timestamp.)  (harvester.py lines 428-442 and 30-39.) -/
theorem rate_limiter_monotone (last d now1 eps1 now2 eps2 : ℚ)
    (h1 : 0 ≤ eps1) (h2 : 0 ≤ eps2) :
    d ≤ getRecordedTime (getRecordedTime last d now1 eps1) d now2 eps2 -
        getRecordedTime last d now1 eps1 ∧
    d ≤ getRecordedTime last d now1 eps1 - last := by
  constructor
  · have := getRecordedTime_ge (getRecordedTime last d now1 eps1) d now2 eps2 h2
    linarith
  · have := getRecordedTime_ge last d now1 eps1 h1
    linarith

/-- Witness for C5 at concrete rationals. -/
theorem rate_limiter_monotone_witness :
    (3 : ℚ) ≤ getRecordedTime (getRecordedTime 10 3 11 1) 3 11 0 -
        getRecordedTime 10 3 11 1 ∧
    (3 : ℚ) ≤ getRecordedTime 10 3 11 1 - 10 :=
  rate_limiter_monotone 10 3 11 1 11 0 (by norm_num) (by norm_num)

/-- Python `x or 0` for the optional robots-declared crawl delay
(`self._get_robot_parser().crawl_delay(self.AGENT) or 0`, harvester.py line
422): `None` and `0` are falsy. -/
def pyOrZero : Option ℚ → ℚ
  | none => 0
  | some v => if v = 0 then 0 else v

/-- `Harvester.crawl_delay` (harvester.py lines 420-423):
`max(60 / requests_per_minute, robots_value)`. -/
def crawl_delay (requestsPerMinute : ℚ) (declared : Option ℚ) : ℚ :=
  max (60 / requestsPerMinute) (pyOrZero declared)

/-- The specification's formula: `max(60/requestsPerMinuteConfigured,
declaredCrawlDelay)` with a missing declaration taken as 0. -/
def crawlDelaySpec (requestsPerMinute : ℚ) (declared : Option ℚ) : ℚ :=
  max (60 / requestsPerMinute) (declared.getD 0)

/-- C6.  `crawl_delay` equals the specification's
`max(60/requests_per_minute, declared-or-zero)`, and is bounded below by
both components: the server-declared limit can only widen, never narrow,
the configured per-minute budget.  (harvester.py lines 420-423.) -/
theorem crawl_delay_is_spec_max (requestsPerMinute : ℚ) (declared : Option ℚ) :
    crawl_delay requestsPerMinute declared =
      crawlDelaySpec requestsPerMinute declared ∧
    60 / requestsPerMinute ≤ crawl_delay requestsPerMinute declared ∧
    declared.getD 0 ≤ crawl_delay requestsPerMinute declared := by
  have hpy : pyOrZero declared = declared.getD 0 := by
    cases declared with
    | none => rfl
    | some v =>
        show (if v = 0 then 0 else v) = v
        split_ifs with h
        · rw [h]
        · rfl
  refine ⟨?_, ?_, ?_⟩
  · unfold crawl_delay crawlDelaySpec
    rw [hpy]
  · exact le_max_left _ _
  · rw [← hpy]
    exact le_max_right _ _

/-! ### Tag replacement (`AdvertAnalyzer.update_advertisement_keywords`,
analyzer.py lines 167-203, and `KeywordManager.store_keyword_matches`,
keyword_manager.py lines 195-231).  The `keyword_advertisement` table is a
list of `(keyword_id, advertisement_id)` pairs; its composite primary key
makes a duplicate insert raise. -/

/-- Does the association table already hold the pair `(k, i)`
(the table's `PRIMARY KEY (keyword_id, advertisement_id)`)? -/
def pairPresent (assoc : List (Nat × Nat)) (k i : Nat) : Bool :=
  assoc.any (fun p => p.1 == k && p.2 == i)

/-- The insert loop of `store_keyword_matches` (keyword_manager.py lines
217-221): insert each pair in order; a primary-key violation raises (and
the surrounding transaction is rolled back). -/
def insertAssocs (i : Nat) :
    List (Nat × Nat) → List Nat → Except String (List (Nat × Nat))
  | assoc, [] => .ok assoc
  | assoc, k :: ks =>
      if pairPresent assoc k i then
        .error "UNIQUE constraint failed: keyword_advertisement"
      else insertAssocs i (assoc ++ [(k, i)]) ks

/-- `KeywordManager.store_keyword_matches` (keyword_manager.py lines
195-231): an empty match list returns at once with no writes; otherwise
every pair is inserted. -/
def store_keyword_matches (assoc : List (Nat × Nat)) (i : Nat)
    (ks : List Nat) : Except String (List (Nat × Nat)) :=
  if ks.isEmpty then .ok assoc else insertAssocs i assoc ks

/-- `AdvertAnalyzer.update_advertisement_keywords` (analyzer.py lines
167-203): a `None` id is a no-op; otherwise first
`DELETE FROM keyword_advertisement WHERE advertisement_id = ?`, then store
the new match set; an error raises (transaction rolled back). -/
def update_advertisement_keywords (assoc : List (Nat × Nat))
    (adId : Option Nat) (ks : List Nat) : Except String (List (Nat × Nat)) :=
  match adId with
  | none => .ok assoc
  | some i => store_keyword_matches (assoc.filter (fun p => !(p.2 == i))) i ks

/-- Two successive re-taggings of the same advertisement. -/
def updateTwice (assoc : List (Nat × Nat)) (adId : Option Nat)
    (k1 k2 : List Nat) : Except String (List (Nat × Nat)) :=
  match update_advertisement_keywords assoc adId k1 with
  | .error e => .error e
  | .ok a1 => update_advertisement_keywords a1 adId k2

theorem pairPresent_filter_ne (assoc : List (Nat × Nat)) (i k : Nat) :
    pairPresent (assoc.filter (fun p => !(p.2 == i))) k i = false := by
  rw [Bool.eq_false_iff]
  intro h
  rcases List.any_eq_true.mp h with ⟨p, hp, hpk⟩
  rcases List.mem_filter.mp hp with ⟨_, hne⟩
  simp only [Bool.and_eq_true, beq_iff_eq] at hpk
  rw [hpk.2] at hne
  simp at hne

theorem insertAssocs_ok (i : Nat) :
    ∀ (ks : List Nat) (assoc : List (Nat × Nat)), ks.Nodup →
      (∀ k ∈ ks, pairPresent assoc k i = false) →
      insertAssocs i assoc ks = .ok (assoc ++ ks.map (fun k => (k, i))) := by
  intro ks
  induction ks with
  | nil => intro assoc _ _; simp [insertAssocs]
  | cons k ks ih =>
      intro assoc hnd hp
      rw [List.nodup_cons] at hnd
      unfold insertAssocs
      rw [hp k (List.mem_cons_self k ks), if_neg (by simp)]
      have hrest : ∀ k' ∈ ks, pairPresent (assoc ++ [(k, i)]) k' i = false := by
        intro k' hk'
        have h1 : pairPresent assoc k' i = false :=
          hp k' (List.mem_cons_of_mem k hk')
        have hkk : k ≠ k' := fun h => hnd.1 (h ▸ hk')
        unfold pairPresent at h1 ⊢
        rw [List.any_append, h1]
        simp [hkk]
      rw [ih (assoc ++ [(k, i)]) hnd.2 hrest]
      simp

theorem update_keywords_ok (assoc : List (Nat × Nat)) (i : Nat)
    (ks : List Nat) (h : ks.Nodup) :
    update_advertisement_keywords assoc (some i) ks =
      .ok (assoc.filter (fun p => !(p.2 == i)) ++ ks.map (fun k => (k, i))) := by
  have hred : update_advertisement_keywords assoc (some i) ks =
      store_keyword_matches (assoc.filter (fun p => !(p.2 == i))) i ks := rfl
  rw [hred]
  unfold store_keyword_matches
  cases ks with
  | nil => simp
  | cons a l =>
      rw [if_neg (by simp)]
      exact insertAssocs_ok i (a :: l) _ h
        (fun k _ => pairPresent_filter_ne assoc i k)

theorem filter_not_id_of_result (assoc : List (Nat × Nat)) (i : Nat)
    (ks : List Nat) :
    ((assoc.filter (fun p => !(p.2 == i)) ++ ks.map (fun k => (k, i))).filter
        (fun p => !(p.2 == i))) = assoc.filter (fun p => !(p.2 == i)) := by
  rw [List.filter_append]
  have h1 : ((assoc.filter (fun p => !(p.2 == i))).filter
      (fun p => !(p.2 == i))) = assoc.filter (fun p => !(p.2 == i)) := by
    rw [List.filter_filter]
    simp
  have h2 : ((ks.map (fun k => (k, i))).filter (fun p => !(p.2 == i))) = [] := by
    rw [List.filter_map]
    have : (ks.filter ((fun p : Nat × Nat => !(p.2 == i)) ∘ fun k => (k, i))) = [] := by
      apply List.filter_eq_nil_iff.mpr
      intro k _
      simp [Function.comp]
    rw [this]
    rfl
  rw [h1, h2, List.append_nil]

/-- C7.  Tag replacement is last-write-wins: re-tagging advertisement `i`
with set `K1` and then with set `K2` succeeds and leaves the association
table holding, for `i`, exactly the pairs `(k, i)` for `k ∈ K2` — never a
union with `K1` — while pairs of other advertisements are untouched,
because each re-tagging first deletes the advertisement's prior tags.
(analyzer.py lines 167-203, keyword_manager.py lines 195-231.) -/
theorem tag_replacement_last_write_wins (assoc : List (Nat × Nat)) (i : Nat)
    (k1 k2 : List Nat) (h1 : k1.Nodup) (h2 : k2.Nodup) :
    updateTwice assoc (some i) k1 k2 =
      .ok (assoc.filter (fun p => !(p.2 == i)) ++ k2.map (fun k => (k, i))) ∧
    ((assoc.filter (fun p => !(p.2 == i)) ++ k2.map (fun k => (k, i))).filter
        (fun p => p.2 == i)) = k2.map (fun k => (k, i)) ∧
    ((assoc.filter (fun p => !(p.2 == i)) ++ k2.map (fun k => (k, i))).filter
        (fun p => !(p.2 == i))) = assoc.filter (fun p => !(p.2 == i)) := by
  refine ⟨?_, ?_, filter_not_id_of_result assoc i k2⟩
  · have hstep : updateTwice assoc (some i) k1 k2 =
        update_advertisement_keywords
          (assoc.filter (fun p => !(p.2 == i)) ++ k1.map (fun k => (k, i)))
          (some i) k2 := by
      unfold updateTwice
      rw [update_keywords_ok assoc i k1 h1]
    rw [hstep, update_keywords_ok _ i k2 h2,
      filter_not_id_of_result assoc i k1]
  · rw [List.filter_append]
    have ha : ((assoc.filter (fun p => !(p.2 == i))).filter
        (fun p => p.2 == i)) = [] := by
      rw [List.filter_filter]
      apply List.filter_eq_nil_iff.mpr
      intro p _
      simp only [Bool.and_eq_true, Bool.not_eq_true', Bool.not_eq_true]
      intro hc
      rw [hc.1] at hc
      exact absurd hc.2 (by simp)
    have hb : ((k2.map (fun k => (k, i))).filter (fun p => p.2 == i)) =
        k2.map (fun k => (k, i)) := by
      apply List.filter_eq_self.mpr
      intro p hp
      rcases List.mem_map.mp hp with ⟨k, _, hk⟩
      rw [← hk]
      simp
    rw [ha, hb, List.nil_append]

/-- Witness for C7: re-tag advertisement 7 with `[1, 2]` then `[3]`; the
table keeps the foreign pair `(5, 9)` and holds exactly `(3, 7)` for 7. -/
theorem tag_replacement_last_write_wins_witness :
    updateTwice [(5, 9)] (some 7) [1, 2] [3] = .ok [(5, 9), (3, 7)] := by
  have h := (tag_replacement_last_write_wins [(5, 9)] 7 [1, 2] [3]
    (by decide) (by decide)).1
  exact h.trans (by rfl)

/-! ### Keyword-pattern compilation (`KeywordManager._compile_keyword` and
`KeywordManager.fetch_keywords`, keyword_manager.py lines 79-122). -/

/-- Validity model of `re.compile` for the pattern dialect exercised here:
group parentheses must balance (tracked outside character classes) and a
trailing backslash is an error.  State: remaining characters, open-group
depth, inside-character-class flag. -/
def reValidAux : List Char → Nat → Bool → Bool
  | [], d, inC => d == 0 && !inC
  | '\\' :: rest, d, inC =>
      match rest with
      | [] => false
      | _ :: rest2 => reValidAux rest2 d inC
  | '(' :: rest, d, inC =>
      if inC then reValidAux rest d true else reValidAux rest (d + 1) false
  | ')' :: rest, d, inC =>
      if inC then reValidAux rest d true
      else
        match d with
        | 0 => false
        | d' + 1 => reValidAux rest d' false
  | '[' :: rest, d, _ => reValidAux rest d true
  | ']' :: rest, d, _ => reValidAux rest d false
  | _ :: rest, d, inC => reValidAux rest d inC

/-- Does `re.compile` accept the pattern? -/
def reValid (s : String) : Bool :=
  reValidAux s.data 0 false

/-- A compiled `re.Pattern`: the pattern text plus the `re.IGNORECASE`
flag. -/
structure CompiledPattern where
  pattern : String
  ignoreCase : Bool
  deriving Repr, DecidableEq

/-- `KeywordManager._compile_keyword` (keyword_manager.py lines 108-122):
`re.compile(search)` when case-sensitive, else
`re.compile(search, re.IGNORECASE)`; an invalid pattern raises `re.error` —
there is no try/except here. -/
def compile_keyword (search : String) (caseSensitive : Bool) :
    Except String CompiledPattern :=
  if reValid search then
    .ok { pattern := search, ignoreCase := !caseSensitive }
  else .error search

/-- `KeywordManager.fetch_keywords` (keyword_manager.py lines 79-106): build
the id → compiled-pattern dictionary by compiling every fetched row, with
no exception handling — a raise from `_compile_keyword` propagates out of
the whole comprehension. -/
def fetch_keywords :
    List (Nat × String × Bool) → Except String (List (Nat × CompiledPattern))
  | [] => .ok []
  | row :: rest =>
      match compile_keyword row.2.1 row.2.2 with
      | .error e => .error e
      | .ok p =>
          match fetch_keywords rest with
          | .error e => .error e
          | .ok ps => .ok ((row.1, p) :: ps)

/-- Counterexample to C8 as stated: with keyword 1 = `manager` (valid) and
keyword 2 = `(` (invalid), compilation does not drop the invalid pattern
and return the valid matcher — `fetch_keywords` raises `re.error` and
returns no matcher set at all. -/
theorem invalid_pattern_not_dropped_counterexample :
    fetch_keywords [(1, "manager", false), (2, "(", false)] =
      .error "(" ∧
    reValid "manager" = true ∧ reValid "(" = false := by
  refine ⟨rfl, rfl, rfl⟩

/-- C8 (amended).  Keyword-pattern compilation is not fault-isolating: for
every keyword set in which some pattern is an invalid regular expression,
`fetch_keywords` raises the compile error — it returns no compiled matcher
set, not even for the valid keywords (in `Harvester.harvest` the raise
aborts that source's initialization).
(keyword_manager.py lines 79-122.) -/
theorem invalid_pattern_aborts_compilation
    (rows : List (Nat × String × Bool))
    (h : ∃ row ∈ rows, reValid row.2.1 = false) :
    (fetch_keywords rows).isOk = false := by
  induction rows with
  | nil => rcases h with ⟨row, hm, _⟩; cases hm
  | cons r rest ih =>
      cases hv : reValid r.2.1 with
      | false =>
          unfold fetch_keywords
          unfold compile_keyword
          rw [hv]
          rfl
      | true =>
          have hrest : ∃ row ∈ rest, reValid row.2.1 = false := by
            rcases h with ⟨row, hm, hrow⟩
            rcases List.mem_cons.mp hm with heq | hmem
            · rw [heq] at hrow; rw [hrow] at hv; cases hv
            · exact ⟨row, hmem, hrow⟩
          unfold fetch_keywords
          unfold compile_keyword
          rw [hv]
          simp only [if_pos]
          cases hf : fetch_keywords rest with
          | error e => rfl
          | ok ps => rw [hf] at ih; exact absurd (ih hrest) (by intro hx; cases hx)

/-- Witness for C8 (amended) at the concrete two-keyword set. -/
theorem invalid_pattern_aborts_compilation_witness :
    (fetch_keywords [(1, "manager", false), (2, "(", false)]).isOk = false := by
  apply invalid_pattern_aborts_compilation
  exact ⟨(2, "(", false), by simp, rfl⟩

/-! ### Harvester construction (`HarvesterFactory.get_next_harvester`,
harvester.py lines 1360-1387, consumed by `harvest_command`,
crawler.py lines 61-137). -/

/-- One `portals` entry of the configuration. -/
structure Portal where
  engine : String
  url : String
  deriving Repr, DecidableEq

/-- The keys of `HarvesterFactory.engines` (harvester.py lines 1361-1364):
only `StepStoneHarvester` and `KarriereHarvester` are registered. -/
def engineRegistry : List String :=
  ["StepStoneHarvester", "KarriereHarvester"]

/-- `HarvesterFactory.get_next_harvester` (harvester.py lines 1370-1387):
a generator that yields one constructed harvester per portal in list order
and raises `ValueError` on reaching the first portal whose engine is not in
the registry.  Result: the harvesters yielded before any raise, and the
raised error message if any. -/
def get_next_harvester : List Portal → List Portal × Option String
  | [] => ([], none)
  | p :: ps =>
      if engineRegistry.contains p.engine then
        ((p :: (get_next_harvester ps).1), (get_next_harvester ps).2)
      else ([], some ("Harvester " ++ p.engine ++ " not found"))

/-- `harvest_command` (crawler.py lines 70-126) starts one harvesting
thread per harvester as the generator is consumed, so exactly the
harvesters yielded before the raise have begun harvesting when the
exception surfaces. -/
def startedHarvesters (portals : List Portal) : List Portal :=
  (get_next_harvester portals).1

/-- Counterexample to C9 as stated: a configuration whose first portal is
registered and whose second names the unregistered `MonsterHarvester`
raises the configuration error, yet one harvester has already been
constructed and started — so it is not the case that no source begins
harvesting. -/
theorem unregistered_engine_not_prestart_counterexample :
    engineRegistry.contains "MonsterHarvester" = false ∧
    (get_next_harvester
      [{ engine := "StepStoneHarvester", url := "https://www.stepstone.at" },
       { engine := "MonsterHarvester", url := "https://www.monster.de" }]).2 =
      some "Harvester MonsterHarvester not found" ∧
    startedHarvesters
      [{ engine := "StepStoneHarvester", url := "https://www.stepstone.at" },
       { engine := "MonsterHarvester", url := "https://www.monster.de" }] =
      [{ engine := "StepStoneHarvester", url := "https://www.stepstone.at" }] := by
  refine ⟨rfl, rfl, rfl⟩

/-- C9 (amended).  Construction is lazy: iterating the factory yields (and
`harvest_command` starts) exactly the harvesters for the longest registered
prefix of the portal list, and a `ValueError` is raised iff some portal
names an unregistered engine — so the error precedes only the harvesters at
or after the first offending portal, and no source at all begins harvesting
only when the first offending portal has no registered portal before it.
(harvester.py lines 1370-1387, crawler.py lines 70-126.) -/
theorem unregistered_engine_error_is_lazy (portals : List Portal) :
    startedHarvesters portals =
      portals.takeWhile (fun p => engineRegistry.contains p.engine) ∧
    (get_next_harvester portals).2.isSome =
      portals.any (fun p => !(engineRegistry.contains p.engine)) := by
  induction portals with
  | nil => exact ⟨rfl, rfl⟩
  | cons p ps ih =>
      cases hc : engineRegistry.contains p.engine with
      | true =>
          unfold startedHarvesters at ih ⊢
          unfold get_next_harvester
          rw [hc]
          simp only [if_pos, List.takeWhile_cons, List.any_cons, hc,
            Bool.not_true, Bool.false_or]
          exact ⟨by rw [ih.1], by rw [ih.2]⟩
      | false =>
          unfold startedHarvesters
          unfold get_next_harvester
          rw [hc]
          have hnm : p.engine ∉ engineRegistry := by simpa using hc
          simp [List.takeWhile_cons, hc, hnm]

/-! ### Export read-back queries
(`Harvester.fetch_advertisements_by_id_range`, harvester.py lines 444-556,
and the row selection of `Harvester.export_html_bodies`, lines 742-759). -/

/-- `EXISTS (SELECT 1 FROM keyword_advertisement ka
WHERE ka.advertisement_id = a.id)`. -/
def hasKeywordAssoc (kas : List (Nat × Nat)) (adId : Nat) : Bool :=
  kas.any (fun p => p.2 == adId)

/-- The optional `a.id >= ?` / `a.id <= ?` range conditions. -/
def inIdRange (minId maxId : Option Nat) (i : Nat) : Bool :=
  (match minId with | none => true | some m => decide (m ≤ i)) &&
  (match maxId with | none => true | some m => decide (i ≤ m))

/-- The row-selection query of `fetch_advertisements_by_id_range`
(harvester.py lines 465-487): advertisements having at least one
`keyword_advertisement` row, within the requested id range, ordered by id.
(The subsequent per-row dictionary building keeps exactly these rows.) -/
def fetch_advertisements_by_id_range (ads : List AdRow)
    (kas : List (Nat × Nat)) (minId maxId : Option Nat) : List AdRow :=
  (ads.filter (fun a => hasKeywordAssoc kas a.id && inIdRange minId maxId a.id)
    ).mergeSort (fun a b => a.id ≤ b.id)

/-- The identical row-selection query of `export_html_bodies`
(harvester.py lines 743-759); only these rows can be written out. -/
def export_html_bodies_rows (ads : List AdRow)
    (kas : List (Nat × Nat)) (minId maxId : Option Nat) : List AdRow :=
  (ads.filter (fun a => hasKeywordAssoc kas a.id && inIdRange minId maxId a.id)
    ).mergeSort (fun a b => a.id ≤ b.id)

/-- C10.  Both export read-back queries return only advertisements having
at least one keyword association: an advertisement id with zero rows in
`keyword_advertisement` is absent from `fetch_advertisements_by_id_range`
and from the `export_html_bodies` selection for every requested id range.
(harvester.py lines 465-487 and 743-759.) -/
theorem exports_require_keyword_assoc (ads : List AdRow)
    (kas : List (Nat × Nat)) (minId maxId : Option Nat) (i : Nat)
    (h : ∀ p ∈ kas, p.2 ≠ i) :
    i ∉ (fetch_advertisements_by_id_range ads kas minId maxId).map
        (fun r => r.id) ∧
    i ∉ (export_html_bodies_rows ads kas minId maxId).map
        (fun r => r.id) := by
  have key : ∀ r : AdRow,
      r ∈ (ads.filter
        (fun a => hasKeywordAssoc kas a.id && inIdRange minId maxId a.id)
        ).mergeSort (fun a b => a.id ≤ b.id) → r.id ≠ i := by
    intro r hr hri
    have hrf := List.mem_mergeSort.mp hr
    have hpred := (List.mem_filter.mp hrf).2
    rw [Bool.and_eq_true] at hpred
    rcases List.any_eq_true.mp hpred.1 with ⟨p, hp, hpi⟩
    rw [beq_iff_eq] at hpi
    exact h p hp (by rw [hpi, hri])
  constructor
  · intro hmem
    rcases List.mem_map.mp hmem with ⟨r, hr, hid⟩
    exact key r hr hid
  · intro hmem
    rcases List.mem_map.mp hmem with ⟨r, hr, hid⟩
    exact key r hr hid

/-- Witness for C10: advertisement 1 has no association and is absent from
both query results over a concrete store. -/
theorem exports_require_keyword_assoc_witness :
    1 ∉ (fetch_advertisements_by_id_range
      [{ id := 1, title := none, description := none, company := none,
         location := none, url := "https://example.org/job/1",
         htmlBody := "<html>x</html>", httpStatus := 200,
         adType := "KarriereAdvertisement", filename := none }]
      [(4, 2)] none none).map (fun r => r.id) ∧
    1 ∉ (export_html_bodies_rows
      [{ id := 1, title := none, description := none, company := none,
         location := none, url := "https://example.org/job/1",
         htmlBody := "<html>x</html>", httpStatus := 200,
         adType := "KarriereAdvertisement", filename := none }]
      [(4, 2)] none none).map (fun r => r.id) := by
  apply exports_require_keyword_assoc
  intro p hp
  rw [List.mem_singleton] at hp
  subst hp
  decide

end Crawler
